import Mathlib

/-!
Verification of the permission-ledger core of `linux-permission-manager`
(`permctl`): a shallow embedding of `src/db.rs` (the SQLite-backed
`Database`) and `src/manager.rs` (the `PermissionManager`), together with
theorems settling the frozen specification claims.

Modelling conventions:
* `DateTime<Utc>` timestamps are modelled as `Int`; each operation takes the
  `Utc::now()` value it observes as an explicit `now : Int` parameter.
* The `permission_grants` table is a `List PermissionGrant` plus the
  `AUTOINCREMENT` counter `next_id`; `UNIQUE(username, command) ON CONFLICT
  REPLACE` is modelled by deleting every conflicting row before the insert,
  exactly as SQLite's REPLACE conflict resolution does.
* The append-only `audit_log` table is a `List AuditLogEntry`.
* `std::process::Command` invocations (`id <user>`, `groups <user>`) are
  modelled by a `ProcessResult` supplied by an `Oracle` environment: either
  the spawn itself fails (`Err` from `.output()`) or the process exits with
  a code and captured stdout.
* The filesystem seen by `update_sudoers_file` is a finite map from absolute
  paths to file data (content and mode); fallible I/O steps are driven by a
  `SyncFailures` record that says which step fails, mirroring the partial
  failures the Rust `?` operators propagate.
-/

/-- One row of the `permission_grants` table (struct `PermissionGrant`,
`src/db.rs`). -/
structure PermissionGrant where
  id : Int
  username : String
  command : String
  granted_at : Int
  expires_at : Int
  granted_by : String
  last_used : Option Int
  revoked : Bool
  revoked_at : Option Int
  revoked_by : Option String
deriving DecidableEq, Repr

/-- One row of the append-only `audit_log` table. -/
structure AuditLogEntry where
  timestamp : Int
  username : String
  command : String
  action : String
  details : Option String
deriving DecidableEq, Repr

/-- The persistent database state: both tables plus the `AUTOINCREMENT`
counter for `permission_grants.id`. -/
structure DBState where
  grants : List PermissionGrant
  audit : List AuditLogEntry
  next_id : Int
deriving DecidableEq, Repr

/-- The state right after `Database::initialize` created the (empty) schema. -/
def dbInit : DBState := { grants := [], audit := [], next_id := 1 }

/-- Row matches `username = ? AND command = ?` (the grant's pair). -/
def pairMatch (g : PermissionGrant) (u c : String) : Bool :=
  g.username == u && g.command == c

/-- Row satisfies `NOT revoked AND expires_at > now` (an *active* grant). -/
def isActive (g : PermissionGrant) (now : Int) : Bool :=
  !g.revoked && decide (g.expires_at > now)

/-- Row matches the `WHERE` clause used by `revoke_permission`,
`check_permission` and `update_last_used`:
`username = ? AND command = ? AND NOT revoked AND expires_at > now`. -/
def matchesActive (g : PermissionGrant) (u c : String) (now : Int) : Bool :=
  pairMatch g u c && isActive g now

/-- `Database::add_audit_log` (`src/db.rs`): appends one row to `audit_log`. -/
def Database.add_audit_log (st : DBState) (username command action : String)
    (details : Option String) (now : Int) : DBState :=
  { st with audit := st.audit ++ [⟨now, username, command, action, details⟩] }

/-- `Database::grant_permission` (`src/db.rs`): `INSERT INTO permission_grants
... RETURNING id` under `UNIQUE(username, command) ON CONFLICT REPLACE`
(every row with the same pair is deleted by the REPLACE resolution), then a
`grant` audit entry.  Returns the fresh id. -/
def Database.grant_permission (st : DBState) (username command : String)
    (expires_at : Int) (granted_by : String) (now : Int) : Int × DBState :=
  let id := st.next_id
  let row : PermissionGrant :=
    { id := id, username := username, command := command, granted_at := now,
      expires_at := expires_at, granted_by := granted_by, last_used := none,
      revoked := false, revoked_at := none, revoked_by := none }
  let st' : DBState :=
    { grants := (st.grants.filter fun g => !pairMatch g username command) ++ [row],
      audit := st.audit,
      next_id := id + 1 }
  (id, Database.add_audit_log st' username command "grant"
        (some ("Granted by " ++ granted_by ++ " until " ++ toString expires_at)) now)

/-- `Database::revoke_permission` (`src/db.rs`): `UPDATE ... SET revoked =
TRUE, revoked_at = now, revoked_by = ? WHERE username = ? AND command = ? AND
NOT revoked AND expires_at > now`; returns `rows_affected() > 0` and appends
a `revoke` audit entry only in that case. -/
def Database.revoke_permission (st : DBState) (username command revoked_by : String)
    (now : Int) : Bool × DBState :=
  let affected := (st.grants.filter fun g => matchesActive g username command now).length
  let grants := st.grants.map fun g =>
    if matchesActive g username command now then
      { g with revoked := true, revoked_at := some now, revoked_by := some revoked_by }
    else g
  let revoked := decide (affected > 0)
  let st' : DBState := { st with grants := grants }
  (revoked,
    if revoked then
      Database.add_audit_log st' username command "revoke"
        (some ("Revoked by " ++ revoked_by)) now
    else st')

/-- `Database::check_permission` (`src/db.rs`): `SELECT COUNT(*) ... > 0`
over the active-pair `WHERE` clause. -/
def Database.check_permission (st : DBState) (username command : String)
    (now : Int) : Bool :=
  st.grants.any fun g => matchesActive g username command now

/-- `Database::update_last_used` (`src/db.rs`): `UPDATE permission_grants SET
last_used = now` over the active-pair `WHERE` clause.  No audit entry is
written. -/
def Database.update_last_used (st : DBState) (username command : String)
    (now : Int) : DBState :=
  { st with
    grants := st.grants.map fun g =>
      if matchesActive g username command now then { g with last_used := some now }
      else g }

/-- Non-strict lexicographic order on character lists: SQLite's BINARY text
collation (UTF-8 byte order coincides with codepoint order). -/
def charListLE : List Char → List Char → Bool
  | [], _ => true
  | _ :: _, [] => false
  | a :: as, b :: bs => if a < b then true else if b < a then false else charListLE as bs

/-- Strict lexicographic order on character lists. -/
def charListLT : List Char → List Char → Bool
  | [], [] => false
  | [], _ :: _ => true
  | _ :: _, [] => false
  | a :: as, b :: bs => if a < b then true else if b < a then false else charListLT as bs

def strLE (a b : String) : Bool := charListLE a.toList b.toList

def strLT (a b : String) : Bool := charListLT a.toList b.toList

theorem charListLE_total : ∀ x y, (charListLE x y || charListLE y x) = true
  | [], _ => by simp [charListLE]
  | _ :: _, [] => by simp [charListLE]
  | a :: as, b :: bs => by
    by_cases hab : a < b
    · simp [charListLE, hab]
    · by_cases hba : b < a
      · simp [charListLE, hab, hba]
      · simpa [charListLE, hab, hba] using charListLE_total as bs

theorem charListLE_trans :
    ∀ x y z, charListLE x y = true → charListLE y z = true → charListLE x z = true
  | [], _, _ => by simp [charListLE]
  | _ :: _, [], _ => by simp [charListLE]
  | _ :: _, _ :: _, [] => by simp [charListLE]
  | a :: as, b :: bs, c :: cs => by
    intro hxy hyz
    by_cases hab : a < b
    · by_cases hbc : b < c
      · simp [charListLE, lt_trans hab hbc]
      · by_cases hcb : c < b
        · simp [charListLE, hbc, hcb] at hyz
        · have : b = c := le_antisymm (not_lt.mp hcb) (not_lt.mp hbc)
          simp [charListLE, this ▸ hab]
    · by_cases hba : b < a
      · simp [charListLE, hab, hba] at hxy
      · have hab' : a = b := le_antisymm (not_lt.mp hba) (not_lt.mp hab)
        subst hab'
        by_cases hac : a < c
        · simp [charListLE, hac]
        · by_cases hca : c < a
          · simp [charListLE, hac, hca] at hyz
          · simp only [charListLE, if_neg (lt_irrefl a)] at hxy
            simp only [charListLE, if_neg hac, if_neg hca] at hyz
            simp only [charListLE, if_neg hac, if_neg hca]
            exact charListLE_trans as bs cs hxy hyz

theorem charListLT_trans :
    ∀ x y z, charListLT x y = true → charListLT y z = true → charListLT x z = true
  | [], [], _ => by simp [charListLT]
  | [], _ :: _, [] => by simp [charListLT]
  | [], _ :: _, _ :: _ => by simp [charListLT]
  | _ :: _, [], _ => by simp [charListLT]
  | _ :: _, _ :: _, [] => by simp [charListLT]
  | a :: as, b :: bs, c :: cs => by
    intro hxy hyz
    by_cases hab : a < b
    · by_cases hbc : b < c
      · simp [charListLT, lt_trans hab hbc]
      · by_cases hcb : c < b
        · simp [charListLT, hbc, hcb] at hyz
        · have : b = c := le_antisymm (not_lt.mp hcb) (not_lt.mp hbc)
          simp [charListLT, this ▸ hab]
    · by_cases hba : b < a
      · simp [charListLT, hab, hba] at hxy
      · have hab' : a = b := le_antisymm (not_lt.mp hba) (not_lt.mp hab)
        subst hab'
        by_cases hac : a < c
        · simp [charListLT, hac]
        · by_cases hca : c < a
          · simp [charListLT, hac, hca] at hyz
          · simp only [charListLT, if_neg (lt_irrefl a)] at hxy
            simp only [charListLT, if_neg hac, if_neg hca] at hyz
            simp only [charListLT, if_neg hac, if_neg hca]
            exact charListLT_trans as bs cs hxy hyz

theorem charListLT_irrefl : ∀ x, charListLT x x = false
  | [] => by simp [charListLT]
  | a :: as => by simp [charListLT, charListLT_irrefl as]

theorem charListLT_total_of_ne :
    ∀ x y, x ≠ y → (charListLT x y || charListLT y x) = true
  | [], [] => by simp
  | [], _ :: _ => by simp [charListLT]
  | _ :: _, [] => by simp [charListLT]
  | a :: as, b :: bs => by
    intro hne
    by_cases hab : a < b
    · simp [charListLT, hab]
    · by_cases hba : b < a
      · simp [charListLT, hab, hba]
      · have hab' : a = b := le_antisymm (not_lt.mp hba) (not_lt.mp hab)
        subst hab'
        have : as ≠ bs := by intro h; exact hne (h ▸ rfl)
        simpa [charListLT, if_neg (lt_irrefl a)] using charListLT_total_of_ne as bs this

theorem charListLT_le : ∀ x y, charListLT x y = true → charListLE x y = true
  | [], _ => by simp [charListLE]
  | _ :: _, [] => by simp [charListLT]
  | a :: as, b :: bs => by
    intro h
    by_cases hab : a < b
    · simp [charListLE, hab]
    · by_cases hba : b < a
      · simp [charListLT, hab, hba] at h
      · simp only [charListLT, if_neg hab, if_neg hba] at h
        simpa [charListLE, hab, hba] using charListLT_le as bs h

/-- The sort key of `ORDER BY username, command`: lexicographic on the pair
of text columns. -/
def grantKeyLEb (a b : PermissionGrant) : Bool :=
  if a.username == b.username then strLE a.command b.command
  else strLT a.username b.username

def grantKeyLE (a b : PermissionGrant) : Prop := grantKeyLEb a b = true

instance : DecidableRel grantKeyLE := fun a b =>
  inferInstanceAs (Decidable (grantKeyLEb a b = true))

theorem strings_ne_toList {a b : String} (h : a ≠ b) : a.toList ≠ b.toList :=
  fun h' => h (String.toList_inj.mp h')

theorem strLE_trans {a b c : String} (h₁ : strLE a b = true) (h₂ : strLE b c = true) :
    strLE a c = true :=
  charListLE_trans _ _ _ h₁ h₂

theorem strLE_total (a b : String) : (strLE a b || strLE b a) = true :=
  charListLE_total _ _

theorem strLT_trans {a b c : String} (h₁ : strLT a b = true) (h₂ : strLT b c = true) :
    strLT a c = true :=
  charListLT_trans _ _ _ h₁ h₂

theorem strLT_irrefl (a : String) : strLT a a = false :=
  charListLT_irrefl _

theorem strLT_total_of_ne {a b : String} (h : a ≠ b) :
    (strLT a b || strLT b a) = true :=
  charListLT_total_of_ne _ _ (strings_ne_toList h)

instance : IsTotal PermissionGrant grantKeyLE where
  total a b := by
    unfold grantKeyLE grantKeyLEb
    by_cases h : a.username = b.username
    · rw [if_pos (beq_iff_eq.mpr h), if_pos (beq_iff_eq.mpr h.symm)]
      exact Bool.or_eq_true_iff.mp (strLE_total a.command b.command)
    · rw [if_neg (by simpa using h), if_neg (by simpa using Ne.symm h)]
      exact Bool.or_eq_true_iff.mp (strLT_total_of_ne h)

instance : IsTrans PermissionGrant grantKeyLE where
  trans a b c hab hbc := by
    unfold grantKeyLE grantKeyLEb at *
    by_cases h₁ : a.username = b.username
    · rw [if_pos (beq_iff_eq.mpr h₁)] at hab
      by_cases h₂ : b.username = c.username
      · rw [if_pos (beq_iff_eq.mpr h₂)] at hbc
        rw [if_pos (beq_iff_eq.mpr (h₁.trans h₂))]
        exact strLE_trans hab hbc
      · rw [if_neg (by simpa using h₂)] at hbc
        have hac : a.username ≠ c.username := h₁ ▸ h₂
        rw [if_neg (by simpa using hac)]
        exact h₁ ▸ hbc
    · rw [if_neg (by simpa using h₁)] at hab
      by_cases h₂ : b.username = c.username
      · have hac : a.username ≠ c.username := fun h => h₁ (h.trans h₂.symm)
        rw [if_neg (by simpa using hac)]
        exact h₂ ▸ hab
      · rw [if_neg (by simpa using h₂)] at hbc
        have hlt := strLT_trans hab hbc
        have hac : a.username ≠ c.username := by
          intro h
          rw [h] at hab
          have := strLT_trans hab hbc
          rw [strLT_irrefl] at this
          exact Bool.false_ne_true this
        rw [if_neg (by simpa using hac)]
        exact hlt

/-- `Database::list_active_permissions` (`src/db.rs`): `SELECT * ... WHERE
NOT revoked AND expires_at > now ORDER BY username, command`. -/
def Database.list_active_permissions (st : DBState) (now : Int) :
    List PermissionGrant :=
  (st.grants.filter fun g => isActive g now).insertionSort grantKeyLE

/-- `Database::cleanup_expired` (`src/db.rs`): `UPDATE ... SET revoked = TRUE,
revoked_at = now, revoked_by = 'system_cleanup' WHERE NOT revoked AND
expires_at <= now`; returns `rows_affected()`.  No audit entry is written. -/
def Database.cleanup_expired (st : DBState) (now : Int) : Int × DBState :=
  let cond := fun (g : PermissionGrant) => !g.revoked && decide (g.expires_at ≤ now)
  let count := ((st.grants.filter cond).length : Int)
  (count,
    { st with
      grants := st.grants.map fun g =>
        if cond g then
          { g with revoked := true, revoked_at := some now,
                   revoked_by := some "system_cleanup" }
        else g })

/-- The `PermissionError` taxonomy (`src/error.rs`), restricted to the
variants the modelled operations produce.  `Database` abstracts over the
opaque `sqlx::Error` payload; `Io` keeps the associated path. -/
inductive PermError where
  | Database
  | Io (path : String)
  | SystemCommand (cmd : String)
  | InvalidDuration (msg : String)
  | CommandNotAllowed (cmd : String)
  | GroupRequirementNotMet (user group : String)
  | UserNotFound (user : String)
deriving DecidableEq, Repr

/-- Outcome of a `std::process::Command::output()` call: either the spawn
itself fails (the `Err` arm of `.output()`), or the process runs to an exit
code with captured stdout. -/
inductive ProcessResult where
  | spawnError
  | exited (code : Nat) (stdout : String)
deriving DecidableEq, Repr

/-- The identity-lookup environment: what `id <user>` and `groups <user>`
return for each username during this invocation. -/
structure Oracle where
  idRes : String → ProcessResult
  groupsRes : String → ProcessResult

/-- `PermissionManager::user_exists` (`src/manager.rs`): runs `id <username>`;
a spawn failure becomes `SystemCommand("id")`, otherwise the answer is
`output.status.success()` — i.e. exit code `0`.  A non-zero exit is returned
as `Ok(false)`, not as an error. -/
def PermissionManager.user_exists (r : ProcessResult) : Except PermError Bool :=
  match r with
  | .spawnError => .error (.SystemCommand "id")
  | .exited code _ => .ok (code == 0)

/-- Helper for `splitWhitespace`: walks the characters, accumulating the
current (reversed) token. -/
def splitWsAux : List Char → List Char → List String
  | [], acc => if acc.isEmpty then [] else [String.mk acc.reverse]
  | c :: cs, acc =>
    if c.isWhitespace then
      if acc.isEmpty then splitWsAux cs []
      else String.mk acc.reverse :: splitWsAux cs []
    else splitWsAux cs (c :: acc)

/-- Rust's `str::split_whitespace`: the maximal whitespace-free tokens, in
order, with no empty tokens. -/
def splitWhitespace (s : String) : List String := splitWsAux s.toList []

/-- `PermissionManager::user_in_group` (`src/manager.rs`): runs
`groups <username>`; a spawn failure becomes `SystemCommand("groups")`,
otherwise the exit status is ignored and membership is decided purely from
the whitespace-split stdout. -/
def PermissionManager.user_in_group (r : ProcessResult) (group : String) :
    Except PermError Bool :=
  match r with
  | .spawnError => .error (.SystemCommand "groups")
  | .exited _ out => .ok ((splitWhitespace out).any fun g => g == group)

/-- `CommandConfig` (`src/config.rs`): the per-command policy. -/
structure CommandConfig where
  description : String
  max_duration : Int
  required_groups : List String
  audit_usage : Bool
  max_concurrent_users : Nat
deriving DecidableEq, Repr

/-- The slice of `Config` (`src/config.rs`) the manager's grant/sync paths
read: the command policy map (`HashMap` modelled as an association list) and
the target sudoers path. -/
structure Config where
  allowed_commands : List (String × CommandConfig)
  sudoers_path : String
deriving DecidableEq, Repr

/-- `HashMap::get` on the policy map. -/
def Config.getCommand (cfg : Config) (command : String) : Option CommandConfig :=
  match cfg.allowed_commands.find? (fun e => e.1 == command) with
  | some e => some e.2
  | none => none

/-- File data stored at a path: content plus permission bits. -/
structure FileData where
  content : String
  mode : Nat
deriving DecidableEq, Repr

/-- The filesystem fragment the synchronizer touches: a finite map from
paths to file data. -/
abbrev FS := List (String × FileData)

def fsGet (fs : FS) (path : String) : Option FileData :=
  match fs.find? (fun e => e.1 == path) with
  | some e => some e.2
  | none => none

def fsSet (fs : FS) (path : String) (d : FileData) : FS :=
  (fs.filter fun e => e.1 != path) ++ [(path, d)]

/-- `fs::write`: truncating write; an existing file keeps its mode, a new
file is created with the default creation mode. -/
def fsWrite (fs : FS) (path : String) (content : String) : FS :=
  match fsGet fs path with
  | some d => fsSet fs path { d with content := content }
  | none => fsSet fs path { content := content, mode := 0o644 }

/-- `fs::set_permissions`. -/
def fsSetMode (fs : FS) (path : String) (m : Nat) : FS :=
  match fsGet fs path with
  | some d => fsSet fs path { d with mode := m }
  | none => fs

/-- `fs::rename src dst`: atomically moves `src` over `dst`. -/
def fsRename (fs : FS) (src dst : String) : FS :=
  match fsGet fs src with
  | some d => fsSet (fs.filter fun e => e.1 != src) dst d
  | none => fs

/-- Rust `Path::with_extension("tmp")` (used to derive the temporary path):
the file name's extension — the part after its last `.`, provided a nonempty
stem precedes that dot — is replaced by `tmp`; a file name without an
extension gets `.tmp` appended. -/
def withExtensionTmp (p : String) : String :=
  let rev := p.toList.reverse
  let fileRev := rev.takeWhile fun c => c != '/'
  let dirRev := rev.dropWhile fun c => c != '/'
  let rest := fileRev.dropWhile fun c => c != '.'
  let tmpRev : List Char := ['p', 'm', 't', '.']
  let newFileRev := if rest.length ≥ 2 then tmpRev ++ rest.tail else tmpRev ++ fileRev
  String.mk ((newFileRev ++ dirRev).reverse)

/-- Which fallible step of `update_sudoers_file` fails in this execution:
the `list_active_permissions` snapshot read, the `fs::write` of the
temporary file, the `fs::metadata`/`fs::set_permissions` pair, or the final
`fs::rename`. -/
structure SyncFailures where
  readFail : Bool
  writeFail : Bool
  permFail : Bool
  renameFail : Bool
deriving DecidableEq, Repr

def noSyncFailures : SyncFailures :=
  { readFail := false, writeFail := false, permFail := false, renameFail := false }

/-- The fixed header comment of the generated sudoers file. -/
def sudoersHeader : String :=
  "# This file is managed by permctl. Do not edit manually.\n\n"

/-- One rendered line: `format!("{} ALL=(ALL) NOPASSWD: {}\n", username, command)`. -/
def sudoersLine (username command : String) : String :=
  username ++ " ALL=(ALL) NOPASSWD: " ++ command ++ "\n"

/-- The `Vec<String>` stored under key `u` in the grouping `HashMap`: the
commands of `u`'s grants in snapshot order (`entry(..).or_default().push(..)`
preserves the order in which the snapshot is traversed). -/
def commandsOf (snap : List PermissionGrant) (u : String) : List String :=
  (snap.filter fun g => g.username == u).map fun g => g.command

/-- The distinct usernames of the snapshot — the key set of the grouping
`HashMap`. -/
def snapUsers (snap : List PermissionGrant) : List String :=
  (snap.map fun g => g.username).dedup

/-- `order` is a possible iteration order of the grouping `HashMap` built
from `snap`: some permutation of its key set.  Rust's `HashMap` (randomized
`RandomState` hashing) guarantees nothing more about `for (k, v) in map`. -/
def validOrder (order : List String) (snap : List PermissionGrant) : Prop :=
  order.Perm (snapUsers snap)

instance (order : List String) (snap : List PermissionGrant) :
    Decidable (validOrder order snap) := by
  unfold validOrder; exact inferInstance

deriving instance DecidableEq for Except

/-- The file content built by the two nested `for` loops of
`update_sudoers_file`, given the `HashMap` iteration order `order`. -/
def renderSudoers (order : List String) (snap : List PermissionGrant) : String :=
  sudoersHeader ++
    String.join (order.map fun u =>
      String.join ((commandsOf snap u).map fun c => sudoersLine u c))

/-- `PermissionManager::update_sudoers_file` (`src/manager.rs`): read the
active snapshot, render header + one line per grant (grouped by user),
write a temporary file `sudoers_path.with_extension("tmp")`, set mode
`0o440`, and rename it over the target.  Each `?`-propagated failure point
is driven by `f`; a failure returns the error and the filesystem as mutated
so far. -/
def PermissionManager.update_sudoers_file (sudoers_path : String)
    (order : List String) (f : SyncFailures) (st : DBState) (fs : FS)
    (now : Int) : Except PermError Unit × FS :=
  if f.readFail then (.error .Database, fs)
  else
    let snap := Database.list_active_permissions st now
    let content := renderSudoers order snap
    let temp_path := withExtensionTmp sudoers_path
    if f.writeFail then (.error (.Io temp_path), fs)
    else
      let fs₁ := fsWrite fs temp_path content
      if f.permFail then (.error (.Io temp_path), fs₁)
      else
        let fs₂ := fsSetMode fs₁ temp_path 0o440
        if f.renameFail then (.error (.Io sudoers_path), fs₂)
        else (.ok (), fsRename fs₂ temp_path sudoers_path)

/-- The `for group in &cmd_config.required_groups` loop of
`grant_permission`: returns the first group whose membership check answers
`false`, propagating a lookup error; `none` when every check passes. -/
def firstGroupFailure (oracle : Oracle) (username : String) :
    List String → Except PermError (Option String)
  | [] => .ok none
  | g :: gs =>
    match PermissionManager.user_in_group (oracle.groupsRes username) g with
    | .error e => .error e
    | .ok true => firstGroupFailure oracle username gs
    | .ok false => .ok (some g)

/-- `PermissionManager::grant_permission` (`src/manager.rs`): policy lookup,
duration check (`duration > max_duration` only), `user_exists`, the
required-groups loop, then `db.grant_permission` with
`expires_at = now + duration` and `update_sudoers_file`.  Returns the
caller-visible result together with the (persistent) database and
filesystem states. -/
def PermissionManager.grant_permission (cfg : Config) (oracle : Oracle)
    (order : List String) (f : SyncFailures) (st : DBState) (fs : FS)
    (username command : String) (duration : Int) (granted_by : String)
    (now : Int) : Except PermError Int × DBState × FS :=
  match cfg.getCommand command with
  | none => (.error (.CommandNotAllowed command), st, fs)
  | some cmd_config =>
    if duration > cmd_config.max_duration then
      (.error (.InvalidDuration
        ("Duration exceeds maximum allowed (" ++ toString cmd_config.max_duration
          ++ " minutes)")), st, fs)
    else
      match PermissionManager.user_exists (oracle.idRes username) with
      | .error e => (.error e, st, fs)
      | .ok userExists =>
        if !userExists then (.error (.UserNotFound username), st, fs)
        else
          match firstGroupFailure oracle username cmd_config.required_groups with
          | .error e => (.error e, st, fs)
          | .ok (some group) =>
            (.error (.GroupRequirementNotMet username group), st, fs)
          | .ok none =>
            let expires_at := now + duration
            let r := Database.grant_permission st username command expires_at granted_by now
            match PermissionManager.update_sudoers_file cfg.sudoers_path order f r.2 fs now with
            | (.error e, fs') => (.error e, r.2, fs')
            | (.ok _, fs') => (.ok r.1, r.2, fs')

/-- `PermissionManager::revoke_permission` (`src/manager.rs`):
`db.revoke_permission`, then `update_sudoers_file` only when a grant was
revoked. -/
def PermissionManager.revoke_permission (cfg : Config) (order : List String)
    (f : SyncFailures) (st : DBState) (fs : FS)
    (username command revoked_by : String) (now : Int) :
    Except PermError Bool × DBState × FS :=
  let r := Database.revoke_permission st username command revoked_by now
  if r.1 then
    match PermissionManager.update_sudoers_file cfg.sudoers_path order f r.2 fs now with
    | (.error e, fs') => (.error e, r.2, fs')
    | (.ok _, fs') => (.ok true, r.2, fs')
  else (.ok false, r.2, fs)

/-- `PermissionManager::cleanup_expired` (`src/manager.rs`):
`db.cleanup_expired`, then `update_sudoers_file` only when `count > 0`. -/
def PermissionManager.cleanup_expired (cfg : Config) (order : List String)
    (f : SyncFailures) (st : DBState) (fs : FS) (now : Int) :
    Except PermError Int × DBState × FS :=
  let r := Database.cleanup_expired st now
  if r.1 > 0 then
    match PermissionManager.update_sudoers_file cfg.sudoers_path order f r.2 fs now with
    | (.error e, fs') => (.error e, r.2, fs')
    | (.ok _, fs') => (.ok r.1, r.2, fs')
  else (.ok r.1, r.2, fs)

/-! ### Shared concrete fixtures used by witnesses and counterexamples -/

/-- The default Docker policy from `Config::default` (`src/config.rs`). -/
def dockerPolicy : CommandConfig :=
  { description := "Docker command access", max_duration := 480,
    required_groups := ["docker"], audit_usage := true,
    max_concurrent_users := 5 }

/-- A configuration holding exactly the default Docker policy. -/
def cfgEx : Config :=
  { allowed_commands := [("/usr/bin/docker", dockerPolicy)],
    sudoers_path := "/etc/sudoers.d/permctl" }

/-- An identity environment where `id` and `groups` both succeed and report
membership in `docker`. -/
def oracleGood : Oracle :=
  { idRes := fun _ => .exited 0 "uid=1000(alice) gid=1000(alice) groups=1000(alice)",
    groupsRes := fun _ => .exited 0 "alice docker users" }

/-- A filesystem holding a previously rendered target file. -/
def fsEx : FS := [("/etc/sudoers.d/permctl", { content := "old content", mode := 0o440 })]

/-- A concrete unrevoked grant row. -/
def gEx : PermissionGrant :=
  { id := 1, username := "alice", command := "/usr/bin/docker", granted_at := 0,
    expires_at := 100, granted_by := "admin", last_used := none, revoked := false,
    revoked_at := none, revoked_by := none }

/-- A database holding exactly `gEx`. -/
def stEx : DBState := { grants := [gEx], audit := [], next_id := 2 }

/-! ### Generic helper lemmas -/

theorem any_eq_decide_filter_pos (p : α → Bool) :
    ∀ l : List α, l.any p = decide (0 < (l.filter p).length)
  | [] => rfl
  | a :: l => by
    by_cases h : p a
    · simp [h, List.filter_cons]
    · simp [h, List.filter_cons, any_eq_decide_filter_pos p l]

theorem map_eq_self_of_no_match {p : α → Bool} {f : α → α} {l : List α}
    (h : ∀ a ∈ l, p a = false) :
    (l.map fun a => if p a then f a else a) = l := by
  rw [List.map_congr_left (g := id) fun a ha => by simp [h a ha]]
  exact List.map_id l

/-! ### Claim C10 -/

/-- Claim C10 (confirmed): `cleanup_expired` marks every unrevoked grant
whose expiry has passed as revoked with actor `system_cleanup` and returns
the number of affected rows, while leaving the audit table unchanged —
unlike an explicit revoke, which appends a `revoke` audit entry whenever it
revokes. -/
theorem c10_cleanup_marks_without_audit (st : DBState) (now : Int) :
    (Database.cleanup_expired st now).2.audit = st.audit ∧
    (Database.cleanup_expired st now).1 =
      (((st.grants.filter fun g => !g.revoked && decide (g.expires_at ≤ now)).length : Nat) : Int) ∧
    (∀ g ∈ st.grants, (!g.revoked && decide (g.expires_at ≤ now)) = true →
      { g with revoked := true, revoked_at := some now,
               revoked_by := some "system_cleanup" } ∈ (Database.cleanup_expired st now).2.grants) ∧
    (∀ g ∈ st.grants, (!g.revoked && decide (g.expires_at ≤ now)) = false →
      g ∈ (Database.cleanup_expired st now).2.grants) ∧
    (∀ u c rb : String, ∀ now' : Int,
      (Database.revoke_permission st u c rb now').1 = true →
      (Database.revoke_permission st u c rb now').2.audit =
        st.audit ++ [⟨now', u, c, "revoke", some ("Revoked by " ++ rb)⟩]) := by
  refine ⟨rfl, rfl, ?_, ?_, ?_⟩
  · intro g hg hcond
    dsimp only [Database.cleanup_expired]
    exact List.mem_map.mpr ⟨g, hg, by simp [hcond]⟩
  · intro g hg hcond
    dsimp only [Database.cleanup_expired]
    exact List.mem_map.mpr ⟨g, hg, by simp [hcond]⟩
  · intro u c rb now' h
    dsimp only [Database.revoke_permission] at h ⊢
    rw [if_pos h]
    rfl

/-- Witness for C10 at a concrete database: cleaning up at time 150 (past
`gEx`'s expiry 100) leaves the audit log unchanged and produces the
`system_cleanup`-revoked row. -/
theorem c10_witness :
    (Database.cleanup_expired stEx 150).2.audit = stEx.audit ∧
    { gEx with revoked := true, revoked_at := some (150 : Int),
               revoked_by := some "system_cleanup" } ∈
      (Database.cleanup_expired stEx 150).2.grants :=
  ⟨(c10_cleanup_marks_without_audit stEx 150).1,
    (c10_cleanup_marks_without_audit stEx 150).2.2.1 gEx (by decide) (by decide)⟩

/-! ### Claim C7 -/

theorem revoke_fst_eq_check (st : DBState) (u c rb : String) (now : Int) :
    (Database.revoke_permission st u c rb now).1 =
      Database.check_permission st u c now := by
  dsimp only [Database.revoke_permission, Database.check_permission]
  rw [any_eq_decide_filter_pos]

theorem revoke_state_of_none (st : DBState) (u c rb : String) (now : Int)
    (h : Database.check_permission st u c now = false) :
    (Database.revoke_permission st u c rb now).2 = st := by
  have hall : ∀ g ∈ st.grants, matchesActive g u c now = false := by
    intro g hg
    simpa using (List.any_eq_false.mp h) g hg
  have h1 : (Database.revoke_permission st u c rb now).1 = false :=
    (revoke_fst_eq_check st u c rb now).trans h
  dsimp only [Database.revoke_permission] at h1 ⊢
  rw [if_neg (by simp [h1])]
  rw [map_eq_self_of_no_match hall]

theorem revoke_mem_updated (st : DBState) (u c rb : String) (now : Int) :
    ∀ g ∈ st.grants, matchesActive g u c now = true →
      { g with revoked := true, revoked_at := some now, revoked_by := some rb } ∈
        (Database.revoke_permission st u c rb now).2.grants := by
  intro g hg hm
  dsimp only [Database.revoke_permission, Database.add_audit_log]
  by_cases hrev :
      decide (0 < (st.grants.filter fun g => matchesActive g u c now).length) = true
  · rw [if_pos hrev]
    exact List.mem_map.mpr ⟨g, hg, by simp [hm]⟩
  · rw [if_neg hrev]
    exact List.mem_map.mpr ⟨g, hg, by simp [hm]⟩

theorem revoke_audit_of_exists (st : DBState) (u c rb : String) (now : Int)
    (h : Database.check_permission st u c now = true) :
    (Database.revoke_permission st u c rb now).2.audit =
      st.audit ++ [⟨now, u, c, "revoke", some ("Revoked by " ++ rb)⟩] := by
  have h1 : (Database.revoke_permission st u c rb now).1 = true :=
    (revoke_fst_eq_check st u c rb now).trans h
  dsimp only [Database.revoke_permission] at h1 ⊢
  rw [if_pos h1]
  rfl

theorem update_sudoers_ok (p : String) (order : List String) (st : DBState)
    (fs : FS) (now : Int) :
    ∃ fs', PermissionManager.update_sudoers_file p order noSyncFailures st fs now =
      (.ok (), fs') :=
  ⟨_, rfl⟩

/-- Claim C7 (confirmed): the manager's `revoke_permission` returns
`Ok(false)` exactly when no active (unrevoked, unexpired) grant matched, in
which case neither the database (grants or audit) nor the filesystem is
touched; when a matching active grant existed it is marked revoked with the
timestamp and actor and exactly one `revoke` audit entry is appended; and
with no synchronization failure the call returns `Ok(true)` exactly when a
matching active grant existed. -/
theorem c7_revoke_contract (cfg : Config) (order : List String) (f : SyncFailures)
    (st : DBState) (fs : FS) (u c rb : String) (now : Int) :
    ((PermissionManager.revoke_permission cfg order f st fs u c rb now).1 = .ok false ↔
      Database.check_permission st u c now = false) ∧
    ((PermissionManager.revoke_permission cfg order f st fs u c rb now).1 = .ok false →
      (PermissionManager.revoke_permission cfg order f st fs u c rb now).2.1 = st ∧
      (PermissionManager.revoke_permission cfg order f st fs u c rb now).2.2 = fs) ∧
    (Database.check_permission st u c now = true →
      (∀ g ∈ st.grants, matchesActive g u c now = true →
        { g with revoked := true, revoked_at := some now, revoked_by := some rb } ∈
          (PermissionManager.revoke_permission cfg order f st fs u c rb now).2.1.grants) ∧
      (PermissionManager.revoke_permission cfg order f st fs u c rb now).2.1.audit =
        st.audit ++ [⟨now, u, c, "revoke", some ("Revoked by " ++ rb)⟩]) ∧
    (f = noSyncFailures →
      ((PermissionManager.revoke_permission cfg order f st fs u c rb now).1 = .ok true ↔
        Database.check_permission st u c now = true)) := by
  have hfst := revoke_fst_eq_check st u c rb now
  by_cases hE : Database.check_permission st u c now = true
  · have h1 : (Database.revoke_permission st u c rb now).1 = true := hfst.trans hE
    have hmain :
        PermissionManager.revoke_permission cfg order f st fs u c rb now =
          match PermissionManager.update_sudoers_file cfg.sudoers_path order f
              (Database.revoke_permission st u c rb now).2 fs now with
          | (.error e, fs') => (.error e, (Database.revoke_permission st u c rb now).2, fs')
          | (.ok _, fs') => (.ok true, (Database.revoke_permission st u c rb now).2, fs') := by
      dsimp only [PermissionManager.revoke_permission]
      rw [if_pos h1]
    rcases hsync : PermissionManager.update_sudoers_file cfg.sudoers_path order f
        (Database.revoke_permission st u c rb now).2 fs now with ⟨res, fs'⟩
    rw [hsync] at hmain
    refine ⟨?_, ?_, ?_, ?_⟩
    · rw [hmain]
      cases res <;> simp [hE]
    · rw [hmain]
      cases res <;> simp
    · intro _
      constructor
      · intro g hg hm
        rw [hmain]
        cases res <;> exact revoke_mem_updated st u c rb now g hg hm
      · rw [hmain]
        cases res <;> exact revoke_audit_of_exists st u c rb now hE
    · intro hf
      subst hf
      rcases update_sudoers_ok cfg.sudoers_path order
          (Database.revoke_permission st u c rb now).2 fs now with ⟨fs'', hok⟩
      rw [hok] at hsync
      cases hsync
      rw [hmain]
      simp [hE]
  · have hE' : Database.check_permission st u c now = false := by
      simpa using hE
    have h1 : (Database.revoke_permission st u c rb now).1 = false := hfst.trans hE'
    have hmain :
        PermissionManager.revoke_permission cfg order f st fs u c rb now =
          (.ok false, (Database.revoke_permission st u c rb now).2, fs) := by
      dsimp only [PermissionManager.revoke_permission]
      rw [if_neg (by simp [h1])]
    refine ⟨?_, ?_, ?_, ?_⟩
    · rw [hmain]
      simp [hE']
    · intro _
      rw [hmain]
      exact ⟨revoke_state_of_none st u c rb now hE', rfl⟩
    · intro h
      exact absurd h (by simp [hE'])
    · intro hf
      rw [hmain]
      simp [hE']

/-- Witness for C7: revoking `gEx`'s pair at time 5 (while active) marks the
row revoked by `admin`, and the call returns `Ok(true)`. -/
theorem c7_witness :
    { gEx with revoked := true, revoked_at := some (5 : Int),
               revoked_by := some "admin" } ∈
      (PermissionManager.revoke_permission cfgEx ["alice"] noSyncFailures stEx fsEx
        "alice" "/usr/bin/docker" "admin" 5).2.1.grants ∧
    (PermissionManager.revoke_permission cfgEx ["alice"] noSyncFailures stEx fsEx
      "alice" "/usr/bin/docker" "admin" 5).1 = .ok true :=
  ⟨((c7_revoke_contract cfgEx ["alice"] noSyncFailures stEx fsEx
      "alice" "/usr/bin/docker" "admin" 5).2.2.1 (by decide)).1 gEx (by decide) (by decide),
   ((c7_revoke_contract cfgEx ["alice"] noSyncFailures stEx fsEx
      "alice" "/usr/bin/docker" "admin" 5).2.2.2 rfl).mpr (by decide)⟩

/-! ### Claim C4 -/

/-- Claim C4 counterexample: with an active grant for the pair,
`update_last_used` (the store's `recordUsage`) leaves the audit log
completely unchanged — no `use` entry is ever appended, refuting the claim
that a `use` audit entry is appended in every case. -/
theorem c4_counterexample :
    Database.check_permission stEx "alice" "/usr/bin/docker" 5 = true ∧
    (Database.update_last_used stEx "alice" "/usr/bin/docker" 5).audit = stEx.audit ∧
    ((Database.update_last_used stEx "alice" "/usr/bin/docker" 5).audit.any
      fun e => e.action == "use") = false := by
  decide

/-- Claim C4 as amended: `recordUsage` updates `last_used` on every matching
active grant, is a no-op on the grants table when no grant for the pair is
active, and never touches the audit log (no `use` entry is written). -/
theorem c4_record_usage_frame (st : DBState) (u c : String) (now : Int) :
    (Database.update_last_used st u c now).audit = st.audit ∧
    (Database.update_last_used st u c now).next_id = st.next_id ∧
    (Database.check_permission st u c now = false →
      (Database.update_last_used st u c now).grants = st.grants) ∧
    (∀ g ∈ st.grants, matchesActive g u c now = true →
      { g with last_used := some now } ∈ (Database.update_last_used st u c now).grants) ∧
    (∀ g ∈ st.grants, matchesActive g u c now = false →
      g ∈ (Database.update_last_used st u c now).grants) := by
  refine ⟨rfl, rfl, ?_, ?_, ?_⟩
  · intro h
    have hall : ∀ g ∈ st.grants, matchesActive g u c now = false := by
      intro g hg
      simpa using (List.any_eq_false.mp h) g hg
    dsimp only [Database.update_last_used]
    exact map_eq_self_of_no_match hall
  · intro g hg hm
    dsimp only [Database.update_last_used]
    exact List.mem_map.mpr ⟨g, hg, by simp [hm]⟩
  · intro g hg hm
    dsimp only [Database.update_last_used]
    exact List.mem_map.mpr ⟨g, hg, by simp [hm]⟩

/-- Witness for C4's amended theorem: at a concrete state the active row
gets `last_used` set, and on an empty database the grants table is
untouched. -/
theorem c4_witness :
    { gEx with last_used := some (5 : Int) } ∈
      (Database.update_last_used stEx "alice" "/usr/bin/docker" 5).grants ∧
    (Database.update_last_used dbInit "alice" "/usr/bin/docker" 5).grants =
      dbInit.grants :=
  ⟨(c4_record_usage_frame stEx "alice" "/usr/bin/docker" 5).2.2.2.1 gEx
      (by decide) (by decide),
   (c4_record_usage_frame dbInit "alice" "/usr/bin/docker" 5).2.2.1 (by decide)⟩

/-! ### Claim C5 -/

/-- Claim C5 counterexample: granting the same (username, command) pair a
second time physically deletes the first grant's row (the
`UNIQUE(username, command) ON CONFLICT REPLACE` constraint), so the row with
id 1 is gone from the grants table, refuting “every grant row ever inserted
is still present afterward”. -/
theorem c5_counterexample :
    ((Database.grant_permission dbInit "alice" "/usr/bin/docker" 100 "admin" 0).2.grants.any
      fun g => g.id == 1) = true ∧
    ((Database.grant_permission
        (Database.grant_permission dbInit "alice" "/usr/bin/docker" 100 "admin" 0).2
        "alice" "/usr/bin/docker" 200 "admin" 1).2.grants.any
      fun g => g.id == 1) = false := by
  decide

/-- The fields of a grant row that no `UPDATE` statement ever touches. -/
def fixedFields (g : PermissionGrant) : Int × String × String × Int × Int × String :=
  (g.id, g.username, g.command, g.granted_at, g.expires_at, g.granted_by)

theorem revoke_grants_eq (st : DBState) (u c rb : String) (now : Int) :
    (Database.revoke_permission st u c rb now).2.grants =
      st.grants.map fun g =>
        if matchesActive g u c now then
          { g with revoked := true, revoked_at := some now, revoked_by := some rb }
        else g := by
  dsimp only [Database.revoke_permission, Database.add_audit_log]
  split <;> rfl

/-- Claim C5 as amended: `revoke`, `recordUsage` and the expiry sweep never
delete or reorder rows — they preserve every row's identity and immutable
fields, mutating only revoked/revoked_at/revoked_by/last_used — but `grant`
physically deletes every existing row for the granted (username, command)
pair (REPLACE conflict resolution) before appending the fresh row. -/
theorem c5_no_deletion_except_replace (st : DBState) (u c rb : String)
    (e now : Int) :
    ((Database.revoke_permission st u c rb now).2.grants.map fixedFields =
      st.grants.map fixedFields) ∧
    ((Database.update_last_used st u c now).grants.map fixedFields =
      st.grants.map fixedFields) ∧
    ((Database.cleanup_expired st now).2.grants.map fixedFields =
      st.grants.map fixedFields) ∧
    ((Database.grant_permission st u c e rb now).2.grants =
      (st.grants.filter fun g => !pairMatch g u c) ++
        [{ id := st.next_id, username := u, command := c, granted_at := now,
           expires_at := e, granted_by := rb, last_used := none, revoked := false,
           revoked_at := none, revoked_by := none }]) := by
  refine ⟨?_, ?_, ?_, rfl⟩
  · rw [revoke_grants_eq, List.map_map]
    refine List.map_congr_left fun g _ => ?_
    simp only [Function.comp_apply]
    split <;> rfl
  · dsimp only [Database.update_last_used]
    rw [List.map_map]
    refine List.map_congr_left fun g _ => ?_
    simp only [Function.comp_apply]
    split <;> rfl
  · dsimp only [Database.cleanup_expired]
    rw [List.map_map]
    refine List.map_congr_left fun g _ => ?_
    simp only [Function.comp_apply]
    split <;> rfl

/-! ### Decomposition of the grant path (validation vs. persisted phase) -/

/-- The validation prefix of `PermissionManager::grant_permission`
(`src/manager.rs`, the checks before any database write), as the error it
short-circuits with, if any. -/
def validateOutcome (cfg : Config) (oracle : Oracle) (u c : String) (d : Int) :
    Option PermError :=
  match cfg.getCommand c with
  | none => some (.CommandNotAllowed c)
  | some cmd_config =>
    if d > cmd_config.max_duration then
      some (.InvalidDuration
        ("Duration exceeds maximum allowed (" ++ toString cmd_config.max_duration
          ++ " minutes)"))
    else
      match PermissionManager.user_exists (oracle.idRes u) with
      | .error e => some e
      | .ok userExists =>
        if !userExists then some (.UserNotFound u)
        else
          match firstGroupFailure oracle u cmd_config.required_groups with
          | .error e => some e
          | .ok (some group) => some (.GroupRequirementNotMet u group)
          | .ok none => none

theorem grant_of_validate_err (cfg : Config) (oracle : Oracle)
    (order : List String) (f : SyncFailures) (st : DBState) (fs : FS)
    (u c : String) (d : Int) (gb : String) (now : Int) (e : PermError)
    (h : validateOutcome cfg oracle u c d = some e) :
    PermissionManager.grant_permission cfg oracle order f st fs u c d gb now =
      (.error e, st, fs) := by
  dsimp only [PermissionManager.grant_permission, validateOutcome] at h ⊢
  cases hm : cfg.getCommand c with
  | none =>
    rw [hm] at h
    dsimp only at h
    cases h
    rfl
  | some pol =>
    rw [hm] at h
    dsimp only at h ⊢
    by_cases hd : d > pol.max_duration
    · rw [if_pos hd] at h ⊢
      cases h
      rfl
    · rw [if_neg hd] at h ⊢
      cases hu : PermissionManager.user_exists (oracle.idRes u) with
      | error e' =>
        rw [hu] at h
        dsimp only at h
        cases h
        rfl
      | ok ue =>
        rw [hu] at h
        dsimp only at h ⊢
        by_cases hue : (!ue) = true
        · rw [if_pos hue] at h ⊢
          cases h
          rfl
        · rw [if_neg hue] at h ⊢
          cases hgf : firstGroupFailure oracle u pol.required_groups with
          | error e' =>
            rw [hgf] at h
            dsimp only at h
            cases h
            rfl
          | ok og =>
            cases og with
            | none =>
              rw [hgf] at h
              dsimp only at h
              cases h
            | some grp =>
              rw [hgf] at h
              dsimp only at h
              cases h
              rfl

theorem grant_of_validate_ok (cfg : Config) (oracle : Oracle)
    (order : List String) (f : SyncFailures) (st : DBState) (fs : FS)
    (u c : String) (d : Int) (gb : String) (now : Int)
    (h : validateOutcome cfg oracle u c d = none) :
    PermissionManager.grant_permission cfg oracle order f st fs u c d gb now =
      (match PermissionManager.update_sudoers_file cfg.sudoers_path order f
          (Database.grant_permission st u c (now + d) gb now).2 fs now with
        | (.error e, fs') =>
          (.error e, (Database.grant_permission st u c (now + d) gb now).2, fs')
        | (.ok _, fs') =>
          (.ok (Database.grant_permission st u c (now + d) gb now).1,
            (Database.grant_permission st u c (now + d) gb now).2, fs')) := by
  dsimp only [PermissionManager.grant_permission, validateOutcome] at h ⊢
  cases hm : cfg.getCommand c with
  | none =>
    rw [hm] at h
    dsimp only at h
    cases h
  | some pol =>
    rw [hm] at h
    dsimp only at h ⊢
    by_cases hd : d > pol.max_duration
    · rw [if_pos hd] at h
      cases h
    · rw [if_neg hd] at h ⊢
      cases hu : PermissionManager.user_exists (oracle.idRes u) with
      | error e' =>
        rw [hu] at h
        dsimp only at h
        cases h
      | ok ue =>
        rw [hu] at h
        dsimp only at h ⊢
        by_cases hue : (!ue) = true
        · rw [if_pos hue] at h
          cases h
        · rw [if_neg hue] at h ⊢
          cases hgf : firstGroupFailure oracle u pol.required_groups with
          | error e' =>
            rw [hgf] at h
            dsimp only at h
            cases h
          | ok og =>
            cases og with
            | some grp =>
              rw [hgf] at h
              dsimp only at h
              cases h
            | none => rfl

/-- The synchronizer only ever fails with the storage (`Database`) error of
its snapshot read or an `Io` error from one of its filesystem steps. -/
theorem update_sudoers_err_shape (p : String) (order : List String)
    (f : SyncFailures) (st : DBState) (fs : FS) (now : Int) (e : PermError)
    (fs' : FS)
    (h : PermissionManager.update_sudoers_file p order f st fs now = (.error e, fs')) :
    e = .Database ∨ ∃ q, e = .Io q := by
  dsimp only [PermissionManager.update_sudoers_file] at h
  split at h
  · rw [Prod.mk.injEq] at h
    injection h.1 with h1
    exact Or.inl h1.symm
  · split at h
    · rw [Prod.mk.injEq] at h
      injection h.1 with h1
      exact Or.inr ⟨_, h1.symm⟩
    · split at h
      · rw [Prod.mk.injEq] at h
        injection h.1 with h1
        exact Or.inr ⟨_, h1.symm⟩
      · split at h
        · rw [Prod.mk.injEq] at h
          injection h.1 with h1
          exact Or.inr ⟨_, h1.symm⟩
        · rw [Prod.mk.injEq] at h
          exact absurd h.1 (by simp)

/-! ### Claim C2 -/

theorem user_exists_err_shape (r : ProcessResult) (e : PermError)
    (h : PermissionManager.user_exists r = .error e) : e = .SystemCommand "id" := by
  cases r with
  | spawnError =>
    dsimp only [PermissionManager.user_exists] at h
    cases h
    rfl
  | exited code out =>
    dsimp only [PermissionManager.user_exists] at h
    cases h

theorem user_in_group_err_shape (r : ProcessResult) (g : String) (e : PermError)
    (h : PermissionManager.user_in_group r g = .error e) : e = .SystemCommand "groups" := by
  cases r with
  | spawnError =>
    dsimp only [PermissionManager.user_in_group] at h
    cases h
    rfl
  | exited code out =>
    dsimp only [PermissionManager.user_in_group] at h
    cases h

theorem firstGroupFailure_err_shape (oracle : Oracle) (u : String) :
    ∀ (gs : List String) (e : PermError), firstGroupFailure oracle u gs = .error e →
      e = .SystemCommand "groups"
  | [], e => by
    intro h
    dsimp only [firstGroupFailure] at h
    cases h
  | g :: gs, e => by
    intro h
    dsimp only [firstGroupFailure] at h
    cases hm : PermissionManager.user_in_group (oracle.groupsRes u) g with
    | error e' =>
      rw [hm] at h
      dsimp only at h
      cases h
      exact user_in_group_err_shape _ _ _ hm
    | ok b =>
      rw [hm] at h
      cases b with
      | true =>
        dsimp only at h
        exact firstGroupFailure_err_shape oracle u gs e h
      | false =>
        dsimp only at h
        cases h

/-- Claim C2 counterexample: a grant request for which the `id` lookup runs
but exits non-zero (code 1) is rejected with the definitive `UserNotFound` —
not with a transient `SystemCommand` lookup failure — so a non-zero exit of
the lookup *is* treated as the definitive answer "user does not exist". -/
theorem c2_counterexample :
    (PermissionManager.grant_permission cfgEx
      { idRes := fun _ => .exited 1 "", groupsRes := fun _ => .exited 0 "" }
      [] noSyncFailures dbInit fsEx "alice" "/usr/bin/docker" 30 "admin" 0).1
      = .error (.UserNotFound "alice") := by
  decide

/-- Claim C2 as amended: only a *spawn* failure of the lookup process
propagates as the distinct transient `SystemCommand` error (with no state
change and no grant); a non-zero exit of `id` is instead treated as a
definitive "user does not exist" (`UserNotFound`), and the `groups` lookup
ignores the exit status entirely, deciding membership from stdout alone. -/
theorem c2_lookup_failure_semantics (cfg : Config) (oracle : Oracle)
    (order : List String) (f : SyncFailures) (st : DBState) (fs : FS)
    (u c : String) (d : Int) (gb : String) (now : Int) (pol : CommandConfig)
    (hpol : cfg.getCommand c = some pol) (hdur : ¬ d > pol.max_duration) :
    (oracle.idRes u = .spawnError →
      PermissionManager.grant_permission cfg oracle order f st fs u c d gb now =
        (.error (.SystemCommand "id"), st, fs)) ∧
    (∀ code out, code ≠ 0 → oracle.idRes u = .exited code out →
      PermissionManager.grant_permission cfg oracle order f st fs u c d gb now =
        (.error (.UserNotFound u), st, fs)) ∧
    (∀ out g gs, oracle.idRes u = .exited 0 out →
      pol.required_groups = g :: gs → oracle.groupsRes u = .spawnError →
      PermissionManager.grant_permission cfg oracle order f st fs u c d gb now =
        (.error (.SystemCommand "groups"), st, fs)) ∧
    (∀ code code' out g, PermissionManager.user_in_group (.exited code out) g =
      PermissionManager.user_in_group (.exited code' out) g) := by
  refine ⟨?_, ?_, ?_, fun code code' out g => rfl⟩
  · intro h
    apply grant_of_validate_err
    dsimp only [validateOutcome]
    rw [hpol]
    dsimp only
    rw [if_neg hdur, h]
    rfl
  · intro code out hcode h
    apply grant_of_validate_err
    have hbe : (code == 0) = false := by simpa using hcode
    dsimp only [validateOutcome]
    rw [hpol]
    dsimp only
    rw [if_neg hdur, h]
    dsimp only [PermissionManager.user_exists]
    rw [hbe]
    rfl
  · intro out g gs h hg hgroups
    apply grant_of_validate_err
    dsimp only [validateOutcome]
    rw [hpol]
    dsimp only
    rw [if_neg hdur, h]
    dsimp only [PermissionManager.user_exists]
    rw [hg]
    dsimp only [firstGroupFailure]
    rw [hgroups]
    rfl

/-- An oracle whose lookup processes cannot even be spawned. -/
def oracleSpawnFail : Oracle :=
  { idRes := fun _ => .spawnError, groupsRes := fun _ => .spawnError }

/-- Witness for C2's amended theorem: a spawn failure of `id` surfaces as
`SystemCommand "id"` with the database and filesystem untouched. -/
theorem c2_witness :
    PermissionManager.grant_permission cfgEx oracleSpawnFail [] noSyncFailures dbInit fsEx
      "alice" "/usr/bin/docker" 30 "admin" 0 =
      (.error (.SystemCommand "id"), dbInit, fsEx) :=
  (c2_lookup_failure_semantics cfgEx oracleSpawnFail [] noSyncFailures dbInit fsEx
    "alice" "/usr/bin/docker" 30 "admin" 0 dockerPolicy (by decide) (by decide)).1 rfl

/-! ### Claim C3 -/

/-- The caller-must-change-input validation errors of the grant path
(`src/error.rs` taxonomy), together with the transient lookup failure — the
errors validation can short-circuit with before any database write. -/
def isValidationError : PermError → Prop
  | .CommandNotAllowed _ => True
  | .InvalidDuration _ => True
  | .UserNotFound _ => True
  | .GroupRequirementNotMet _ _ => True
  | .SystemCommand _ => True
  | _ => False

theorem validate_some_shape (cfg : Config) (oracle : Oracle) (u c : String)
    (d : Int) (pol : CommandConfig) (e : PermError)
    (hpol : cfg.getCommand c = some pol) (hd : ¬ d > pol.max_duration)
    (h : validateOutcome cfg oracle u c d = some e) :
    e = .SystemCommand "id" ∨ e = .UserNotFound u ∨ e = .SystemCommand "groups" ∨
      ∃ g, e = .GroupRequirementNotMet u g := by
  dsimp only [validateOutcome] at h
  rw [hpol] at h
  dsimp only at h
  rw [if_neg hd] at h
  cases hu : PermissionManager.user_exists (oracle.idRes u) with
  | error e' =>
    rw [hu] at h
    dsimp only at h
    cases h
    exact Or.inl (user_exists_err_shape _ _ hu)
  | ok ue =>
    rw [hu] at h
    dsimp only at h
    by_cases hue : (!ue) = true
    · rw [if_pos hue] at h
      cases h
      exact Or.inr (Or.inl rfl)
    · rw [if_neg hue] at h
      cases hgf : firstGroupFailure oracle u pol.required_groups with
      | error e' =>
        rw [hgf] at h
        dsimp only at h
        cases h
        exact Or.inr (Or.inr (Or.inl (firstGroupFailure_err_shape _ _ _ _ hgf)))
      | ok og =>
        rw [hgf] at h
        cases og with
        | none => cases h
        | some g =>
          dsimp only at h
          cases h
          exact Or.inr (Or.inr (Or.inr ⟨g, rfl⟩))

/-- Claim C3 counterexample: a grant request with duration 0 (not strictly
positive) is *not* rejected — it succeeds, inserting a (born-expired) grant
row and appending a `grant` audit entry, refuting "rejects with
InvalidDuration exactly when the requested duration is not strictly
positive or exceeds max_duration". -/
theorem c3_counterexample :
    (PermissionManager.grant_permission cfgEx oracleGood ["alice"] noSyncFailures
      dbInit fsEx "alice" "/usr/bin/docker" 0 "admin" 0).1 = .ok 1 ∧
    (PermissionManager.grant_permission cfgEx oracleGood ["alice"] noSyncFailures
      dbInit fsEx "alice" "/usr/bin/docker" 0 "admin" 0).2.1.grants.length = 1 ∧
    (PermissionManager.grant_permission cfgEx oracleGood ["alice"] noSyncFailures
      dbInit fsEx "alice" "/usr/bin/docker" 0 "admin" 0).2.1.audit.length = 1 := by
  decide

/-- Claim C3 as amended: for an allowed command, validation rejects with
`InvalidDuration` exactly when the duration exceeds the policy's
max_duration (there is no strict-positivity check), and any request that
validation rejects leaves the database and the filesystem untouched (no row
inserted, no audit entry appended). -/
theorem c3_duration_check (cfg : Config) (oracle : Oracle) (order : List String)
    (f : SyncFailures) (st : DBState) (fs : FS) (u c : String) (d : Int)
    (gb : String) (now : Int) (pol : CommandConfig)
    (hpol : cfg.getCommand c = some pol) :
    ((∃ msg, (PermissionManager.grant_permission cfg oracle order f st fs u c d gb now).1 =
        .error (.InvalidDuration msg)) ↔ d > pol.max_duration) ∧
    (∀ e, (PermissionManager.grant_permission cfg oracle order f st fs u c d gb now).1 =
        .error e → isValidationError e →
      (PermissionManager.grant_permission cfg oracle order f st fs u c d gb now).2.1 = st ∧
      (PermissionManager.grant_permission cfg oracle order f st fs u c d gb now).2.2 = fs) := by
  constructor
  · constructor
    · rintro ⟨msg, hmsg⟩
      by_contra hd
      cases hv : validateOutcome cfg oracle u c d with
      | none =>
        rw [grant_of_validate_ok cfg oracle order f st fs u c d gb now hv] at hmsg
        cases hs : PermissionManager.update_sudoers_file cfg.sudoers_path order f
            (Database.grant_permission st u c (now + d) gb now).2 fs now with
        | mk res fs' =>
          rw [hs] at hmsg
          cases res with
          | error e =>
            dsimp only at hmsg
            cases hmsg
            rcases update_sudoers_err_shape _ _ _ _ _ _ _ _ hs with h | ⟨q, h⟩ <;> cases h
          | ok v =>
            dsimp only at hmsg
            cases hmsg
      | some e =>
        rw [grant_of_validate_err cfg oracle order f st fs u c d gb now e hv] at hmsg
        dsimp only at hmsg
        cases hmsg
        rcases validate_some_shape cfg oracle u c d pol _ hpol hd hv with
          h | h | h | ⟨g, h⟩ <;> cases h
    · intro hd
      have hv : validateOutcome cfg oracle u c d =
          some (.InvalidDuration
            ("Duration exceeds maximum allowed (" ++ toString pol.max_duration
              ++ " minutes)")) := by
        dsimp only [validateOutcome]
        rw [hpol]
        dsimp only
        rw [if_pos hd]
      rw [grant_of_validate_err cfg oracle order f st fs u c d gb now _ hv]
      exact ⟨_, rfl⟩
  · intro e hres hval
    cases hv : validateOutcome cfg oracle u c d with
    | none =>
      rw [grant_of_validate_ok cfg oracle order f st fs u c d gb now hv] at hres
      cases hs : PermissionManager.update_sudoers_file cfg.sudoers_path order f
          (Database.grant_permission st u c (now + d) gb now).2 fs now with
      | mk res fs' =>
        rw [hs] at hres
        cases res with
        | error e' =>
          dsimp only at hres
          cases hres
          rcases update_sudoers_err_shape _ _ _ _ _ _ _ _ hs with h | ⟨q, h⟩ <;>
            · cases h
              exact absurd hval (by simp [isValidationError])
        | ok v =>
          dsimp only at hres
          cases hres
    | some e' =>
      rw [grant_of_validate_err cfg oracle order f st fs u c d gb now e' hv]
      exact ⟨rfl, rfl⟩

/-- Witness for C3's amended theorem: duration 481 exceeds the Docker
policy's max of 480, the request is rejected with `InvalidDuration`, and the
database and filesystem are untouched. -/
theorem c3_witness :
    (∃ msg, (PermissionManager.grant_permission cfgEx oracleGood ["alice"] noSyncFailures
        dbInit fsEx "alice" "/usr/bin/docker" 481 "admin" 0).1 =
      .error (.InvalidDuration msg)) ∧
    (PermissionManager.grant_permission cfgEx oracleGood ["alice"] noSyncFailures
      dbInit fsEx "alice" "/usr/bin/docker" 481 "admin" 0).2.1 = dbInit ∧
    (PermissionManager.grant_permission cfgEx oracleGood ["alice"] noSyncFailures
      dbInit fsEx "alice" "/usr/bin/docker" 481 "admin" 0).2.2 = fsEx := by
  have hc := c3_duration_check cfgEx oracleGood ["alice"] noSyncFailures dbInit fsEx
    "alice" "/usr/bin/docker" 481 "admin" 0 dockerPolicy (by decide)
  have h1 := hc.1.mpr (by decide)
  rcases h1 with ⟨msg, hmsg⟩
  exact ⟨⟨msg, hmsg⟩, hc.2 _ hmsg trivial⟩

/-! ### Filesystem lemmas for the synchronizer -/

theorem fsGet_fsSet_ne (fs : FS) (path q : String) (dta : FileData) (h : q ≠ path) :
    fsGet (fsSet fs path dta) q = fsGet fs q := by
  have hpq : (path == q) = false := by simpa using Ne.symm h
  have hone : List.find? (fun (e : String × FileData) => e.1 == q) [(path, dta)] = none := by
    simp [List.find?, hpq]
  have hfun : (fun (e : String × FileData) =>
        decide ((e.1 != path) = true ∧ (e.1 == q) = true)) =
      (fun (e : String × FileData) => e.1 == q) := by
    funext e
    by_cases he : (e.1 == q) = true
    · have he' : e.1 = q := beq_iff_eq.mp he
      have hbne : (e.1 != path) = true := bne_iff_ne.mpr (he' ▸ h)
      simp [he, hbne]
    · have he0 : (e.1 == q) = false := by simpa using he
      simp [he0]
  dsimp only [fsGet, fsSet]
  rw [List.find?_append, List.find?_filter, hfun, hone, Option.or_none]

theorem fsGet_fsWrite_ne (fs : FS) (path q content : String) (h : q ≠ path) :
    fsGet (fsWrite fs path content) q = fsGet fs q := by
  dsimp only [fsWrite]
  cases fsGet fs path with
  | some d => exact fsGet_fsSet_ne fs path q _ h
  | none => exact fsGet_fsSet_ne fs path q _ h

theorem fsGet_fsSetMode_ne (fs : FS) (path q : String) (m : Nat) (h : q ≠ path) :
    fsGet (fsSetMode fs path m) q = fsGet fs q := by
  dsimp only [fsSetMode]
  cases fsGet fs path with
  | some d => exact fsGet_fsSet_ne fs path q _ h
  | none => rfl

/-- Any failing run of the synchronizer — whichever step failed — leaves the
target path's file untouched, provided the derived temporary path differs
from the target. -/
theorem update_sudoers_fail_preserves_target (p : String) (order : List String)
    (f : SyncFailures) (st : DBState) (fs : FS) (now : Int) (e : PermError)
    (fs' : FS) (hne : withExtensionTmp p ≠ p)
    (h : PermissionManager.update_sudoers_file p order f st fs now = (.error e, fs')) :
    fsGet fs' p = fsGet fs p := by
  have hne' : p ≠ withExtensionTmp p := Ne.symm hne
  dsimp only [PermissionManager.update_sudoers_file] at h
  split at h
  · cases h
    rfl
  · split at h
    · cases h
      rfl
    · split at h
      · cases h
        exact fsGet_fsWrite_ne _ _ _ _ hne'
      · split at h
        · cases h
          rw [fsGet_fsSetMode_ne _ _ _ _ hne', fsGet_fsWrite_ne _ _ _ _ hne']
        · rw [Prod.mk.injEq] at h
          exact absurd h.1 (by simp)

theorem update_sudoers_fails_early (p : String) (order : List String)
    (f : SyncFailures) (st : DBState) (fs : FS) (now : Int)
    (h : f.readFail = true ∨ f.writeFail = true ∨ f.permFail = true) :
    ∃ e fs', PermissionManager.update_sudoers_file p order f st fs now =
      (.error e, fs') := by
  dsimp only [PermissionManager.update_sudoers_file]
  by_cases h1 : f.readFail = true
  · rw [if_pos h1]
    exact ⟨_, _, rfl⟩
  · rw [if_neg h1]
    by_cases h2 : f.writeFail = true
    · rw [if_pos h2]
      exact ⟨_, _, rfl⟩
    · rw [if_neg h2]
      have h3 : f.permFail = true := by
        rcases h with h | h | h
        · exact absurd h h1
        · exact absurd h h2
        · exact h
      rw [if_pos h3]
      exact ⟨_, _, rfl⟩

/-! ### Claim C8 -/

/-- Claim C8 counterexample: when the configured target path itself ends in
`.tmp`, `with_extension("tmp")` maps it to *itself*, so the "temporary"
write clobbers the target; a failure at the subsequent permission-setting
step (before the rename) then returns an error with the previous target
content already destroyed. -/
theorem c8_counterexample :
    withExtensionTmp "/etc/sudoers.d/permctl.tmp" = "/etc/sudoers.d/permctl.tmp" ∧
    (PermissionManager.update_sudoers_file "/etc/sudoers.d/permctl.tmp" []
      { readFail := false, writeFail := false, permFail := true, renameFail := false }
      dbInit [("/etc/sudoers.d/permctl.tmp", { content := "old content", mode := 0o440 })]
      0).1 = .error (.Io "/etc/sudoers.d/permctl.tmp") ∧
    fsGet (PermissionManager.update_sudoers_file "/etc/sudoers.d/permctl.tmp" []
      { readFail := false, writeFail := false, permFail := true, renameFail := false }
      dbInit [("/etc/sudoers.d/permctl.tmp", { content := "old content", mode := 0o440 })]
      0).2 "/etc/sudoers.d/permctl.tmp" ≠
      fsGet [("/etc/sudoers.d/permctl.tmp",
        ({ content := "old content", mode := 0o440 } : FileData))]
        "/etc/sudoers.d/permctl.tmp" := by
  decide

/-- Claim C8 as amended: provided the derived temporary path
(`sudoers_path.with_extension("tmp")`) differs from the target path — which
holds for every target whose file name does not already carry the `tmp`
extension — a rewrite that fails at the snapshot read, the temporary-file
write, or the permission-setting step returns an error and leaves the
previous target file untouched. -/
theorem c8_fail_safe_rewrite (p : String) (order : List String) (f : SyncFailures)
    (st : DBState) (fs : FS) (now : Int)
    (hne : withExtensionTmp p ≠ p)
    (hfail : f.readFail = true ∨ f.writeFail = true ∨ f.permFail = true) :
    ∃ e fs', PermissionManager.update_sudoers_file p order f st fs now =
      (.error e, fs') ∧ fsGet fs' p = fsGet fs p := by
  rcases update_sudoers_fails_early p order f st fs now hfail with ⟨e, fs', hu⟩
  exact ⟨e, fs', hu,
    update_sudoers_fail_preserves_target p order f st fs now e fs' hne hu⟩

/-- Witness for C8's amended theorem: a permission-setting failure with the
standard target path leaves the old target content in place. -/
theorem c8_witness :
    ∃ e fs', PermissionManager.update_sudoers_file "/etc/sudoers.d/permctl" ["alice"]
      { readFail := false, writeFail := false, permFail := true, renameFail := false }
      stEx fsEx 5 = (.error e, fs') ∧
      fsGet fs' "/etc/sudoers.d/permctl" = fsGet fsEx "/etc/sudoers.d/permctl" :=
  c8_fail_safe_rewrite "/etc/sudoers.d/permctl" ["alice"]
    { readFail := false, writeFail := false, permFail := true, renameFail := false }
    stEx fsEx 5 (by decide) (Or.inr (Or.inr rfl))

/-! ### Claim C9 -/

theorem validate_some_isValidation (cfg : Config) (oracle : Oracle) (u c : String)
    (d : Int) (e : PermError)
    (h : validateOutcome cfg oracle u c d = some e) : isValidationError e := by
  dsimp only [validateOutcome] at h
  cases hm : cfg.getCommand c with
  | none =>
    rw [hm] at h
    dsimp only at h
    cases h
    trivial
  | some pol =>
    rw [hm] at h
    dsimp only at h
    by_cases hd : d > pol.max_duration
    · rw [if_pos hd] at h
      cases h
      trivial
    · rw [if_neg hd] at h
      cases hu : PermissionManager.user_exists (oracle.idRes u) with
      | error e' =>
        rw [hu] at h
        dsimp only at h
        cases h
        rw [user_exists_err_shape _ _ hu]
        trivial
      | ok ue =>
        rw [hu] at h
        dsimp only at h
        by_cases hue : (!ue) = true
        · rw [if_pos hue] at h
          cases h
          trivial
        · rw [if_neg hue] at h
          cases hgf : firstGroupFailure oracle u pol.required_groups with
          | error e' =>
            rw [hgf] at h
            dsimp only at h
            cases h
            rw [firstGroupFailure_err_shape _ _ _ _ hgf]
            trivial
          | ok og =>
            rw [hgf] at h
            cases og with
            | none => cases h
            | some g =>
              dsimp only at h
              cases h
              trivial

theorem grant_row_mem (st : DBState) (u c : String) (e : Int) (gb : String)
    (now : Int) :
    ({ id := st.next_id, username := u, command := c, granted_at := now,
       expires_at := e, granted_by := gb, last_used := none, revoked := false,
       revoked_at := none, revoked_by := none } : PermissionGrant) ∈
      (Database.grant_permission st u c e gb now).2.grants := by
  dsimp only [Database.grant_permission, Database.add_audit_log]
  exact List.mem_append_right _ (List.mem_singleton.mpr rfl)

/-- Claim C9 counterexample: with the store write succeeding and the
synchronizer failing at its *snapshot read*, the caller receives
`Err(Database)` — the very constructor that failed ledger mutations carry —
while the grant row is durably present.  The outcome is neither a distinct
"partial success" value nor distinguishable in kind from a failed ledger
mutation. -/
theorem c9_counterexample :
    (PermissionManager.grant_permission cfgEx oracleGood []
      { readFail := true, writeFail := false, permFail := false, renameFail := false }
      dbInit fsEx "alice" "/usr/bin/docker" 30 "admin" 0).1 = .error .Database ∧
    ((PermissionManager.grant_permission cfgEx oracleGood []
      { readFail := true, writeFail := false, permFail := false, renameFail := false }
      dbInit fsEx "alice" "/usr/bin/docker" 30 "admin" 0).2.1.grants.any
        fun g => g.id == 1 && (g.username == "alice")) = true := by
  decide

/-- Claim C9 as amended: when the rewrite fails at a *filesystem* step the
caller receives an `Io` error — a constructor that, inside
`grant_permission`, occurs only after a durable store write, so it is
distinguishable from a `Database` (ledger) failure, though it carries no
grant id and no explicit partial-success marker; the grant row is durable
and the target file not yet updated.  When the rewrite instead fails at its
snapshot read the caller receives the `Database` error constructor itself
(see the counterexample), so that failure mode is not distinctly surfaced. -/
theorem c9_sync_failure_surfacing (cfg : Config) (oracle : Oracle)
    (order : List String) (f : SyncFailures) (st : DBState) (fs : FS)
    (u c : String) (d : Int) (gb : String) (now : Int)
    (hne : withExtensionTmp cfg.sudoers_path ≠ cfg.sudoers_path) :
    (∀ p, (PermissionManager.grant_permission cfg oracle order f st fs u c d gb now).1 =
        .error (.Io p) →
      ({ id := st.next_id, username := u, command := c, granted_at := now,
         expires_at := now + d, granted_by := gb, last_used := none, revoked := false,
         revoked_at := none, revoked_by := none } : PermissionGrant) ∈
        (PermissionManager.grant_permission cfg oracle order f st fs u c d gb now).2.1.grants ∧
      fsGet (PermissionManager.grant_permission cfg oracle order f st fs u c d gb now).2.2
          cfg.sudoers_path = fsGet fs cfg.sudoers_path) ∧
    ((PermissionManager.grant_permission cfg oracle order f st fs u c d gb now).1 =
        .error .Database →
      ({ id := st.next_id, username := u, command := c, granted_at := now,
         expires_at := now + d, granted_by := gb, last_used := none, revoked := false,
         revoked_at := none, revoked_by := none } : PermissionGrant) ∈
        (PermissionManager.grant_permission cfg oracle order f st fs u c d gb now).2.1.grants ∧
      fsGet (PermissionManager.grant_permission cfg oracle order f st fs u c d gb now).2.2
          cfg.sudoers_path = fsGet fs cfg.sudoers_path) ∧
    (∀ q, (PermError.Io q) ≠ PermError.Database) := by
  have key : ∀ e : PermError,
      (PermissionManager.grant_permission cfg oracle order f st fs u c d gb now).1 =
        .error e → ¬ isValidationError e →
      ({ id := st.next_id, username := u, command := c, granted_at := now,
         expires_at := now + d, granted_by := gb, last_used := none, revoked := false,
         revoked_at := none, revoked_by := none } : PermissionGrant) ∈
        (PermissionManager.grant_permission cfg oracle order f st fs u c d gb now).2.1.grants ∧
      fsGet (PermissionManager.grant_permission cfg oracle order f st fs u c d gb now).2.2
          cfg.sudoers_path = fsGet fs cfg.sudoers_path := by
    intro e hres hnv
    cases hv : validateOutcome cfg oracle u c d with
    | some e' =>
      rw [grant_of_validate_err cfg oracle order f st fs u c d gb now e' hv] at hres
      dsimp only at hres
      cases hres
      exact absurd (validate_some_isValidation cfg oracle u c d _ hv) hnv
    | none =>
      rw [grant_of_validate_ok cfg oracle order f st fs u c d gb now hv] at hres ⊢
      cases hs : PermissionManager.update_sudoers_file cfg.sudoers_path order f
          (Database.grant_permission st u c (now + d) gb now).2 fs now with
      | mk res fs' =>
        rw [hs] at hres
        cases res with
        | ok v =>
          dsimp only at hres
          cases hres
        | error e'' =>
          exact ⟨grant_row_mem st u c (now + d) gb now,
            update_sudoers_fail_preserves_target _ _ _ _ _ _ _ _ hne hs⟩
  exact ⟨fun p hres => key _ hres (fun hk => hk),
    fun hres => key _ hres (fun hk => hk),
    fun q hq => PermError.noConfusion hq⟩

/-- Witness for C9's amended theorem: a temporary-file write failure after a
successful store write leaves the fresh grant row durable and the target
file unchanged. -/
theorem c9_witness :
    ({ id := 1, username := "alice", command := "/usr/bin/docker", granted_at := 0,
       expires_at := 30, granted_by := "admin", last_used := none, revoked := false,
       revoked_at := none, revoked_by := none } : PermissionGrant) ∈
      (PermissionManager.grant_permission cfgEx oracleGood []
        { readFail := false, writeFail := true, permFail := false, renameFail := false }
        dbInit fsEx "alice" "/usr/bin/docker" 30 "admin" 0).2.1.grants ∧
    fsGet (PermissionManager.grant_permission cfgEx oracleGood []
        { readFail := false, writeFail := true, permFail := false, renameFail := false }
        dbInit fsEx "alice" "/usr/bin/docker" 30 "admin" 0).2.2
      "/etc/sudoers.d/permctl" = fsGet fsEx "/etc/sudoers.d/permctl" :=
  (c9_sync_failure_surfacing cfgEx oracleGood []
    { readFail := false, writeFail := true, permFail := false, renameFail := false }
    dbInit fsEx "alice" "/usr/bin/docker" 30 "admin" 0 (by decide)).1
    "/etc/sudoers.d/permctl.tmp" (by decide)

/-! ### Claim C6 -/

/-- The mutating store operations of §4.2 (grant / revoke / recordUsage /
sweepExpired), each carrying the wall-clock instant it observes. -/
inductive DbOp where
  | grant (username command : String) (expires_at : Int) (granted_by : String) (now : Int)
  | revoke (username command revoked_by : String) (now : Int)
  | recordUsage (username command : String) (now : Int)
  | sweep (now : Int)

def applyDbOp (st : DBState) : DbOp → DBState
  | .grant u c e gb t => (Database.grant_permission st u c e gb t).2
  | .revoke u c rb t => (Database.revoke_permission st u c rb t).2
  | .recordUsage u c t => Database.update_last_used st u c t
  | .sweep t => (Database.cleanup_expired st t).2

/-- Run a sequence of store operations from the freshly initialized
database. -/
def runOps (ops : List DbOp) : DBState := ops.foldl applyDbOp dbInit

/-- The `UNIQUE(username, command)` key of a grant row. -/
def grantKey (g : PermissionGrant) : String × String := (g.username, g.command)

/-- The schema's uniqueness constraint: no two rows share a (username,
command) key. -/
def keysNodup (st : DBState) : Prop := (st.grants.map grantKey).Nodup

theorem pairMatch_eq_key {g : PermissionGrant} {u c : String}
    (h : pairMatch g u c = true) : grantKey g = (u, c) := by
  rw [pairMatch, Bool.and_eq_true, beq_iff_eq, beq_iff_eq] at h
  dsimp only [grantKey]
  rw [h.1, h.2]

theorem keysNodup_grant (st : DBState) (u c : String) (e : Int) (gb : String)
    (now : Int) (h : keysNodup st) :
    keysNodup (Database.grant_permission st u c e gb now).2 := by
  dsimp only [keysNodup] at h
  dsimp only [keysNodup, Database.grant_permission, Database.add_audit_log]
  rw [List.map_append]
  refine List.Nodup.append ?_ (List.nodup_singleton _) ?_
  · exact List.Nodup.sublist ((List.filter_sublist _).map grantKey) h
  · intro x hx hx'
    rw [List.map_singleton, List.mem_singleton] at hx'
    subst hx'
    rcases List.mem_map.mp hx with ⟨g, hg, hkey⟩
    rw [List.mem_filter] at hg
    have hpm : pairMatch g u c = false := by simpa using hg.2
    dsimp only [grantKey] at hkey
    have h1 : g.username = u := congrArg Prod.fst hkey
    have h2 : g.command = c := congrArg Prod.snd hkey
    rw [pairMatch, h1, h2] at hpm
    simp at hpm

theorem keys_map_update (f : PermissionGrant → PermissionGrant)
    (hf : ∀ g, grantKey (f g) = grantKey g) (p : PermissionGrant → Bool)
    (l : List PermissionGrant) :
    ((l.map fun g => if p g then f g else g).map grantKey) = l.map grantKey := by
  rw [List.map_map]
  refine List.map_congr_left fun g _ => ?_
  simp only [Function.comp_apply]
  split
  · exact hf g
  · rfl

theorem keysNodup_applyOp (st : DBState) (op : DbOp) (h : keysNodup st) :
    keysNodup (applyDbOp st op) := by
  cases op with
  | grant u c e gb t => exact keysNodup_grant st u c e gb t h
  | revoke u c rb t =>
    dsimp only [keysNodup, applyDbOp]
    rw [revoke_grants_eq,
      keys_map_update
        (fun g => { g with revoked := true, revoked_at := some t, revoked_by := some rb })
        (fun g => rfl)]
    exact h
  | recordUsage u c t =>
    dsimp only [keysNodup, applyDbOp, Database.update_last_used]
    rw [keys_map_update (fun g => { g with last_used := some t }) (fun g => rfl)]
    exact h
  | sweep t =>
    dsimp only [keysNodup, applyDbOp, Database.cleanup_expired]
    rw [keys_map_update
      (fun g =>
        { g with revoked := true, revoked_at := some t, revoked_by := some "system_cleanup" })
      (fun g => rfl)]
    exact h

theorem keysNodup_runOps (ops : List DbOp) : keysNodup (runOps ops) := by
  suffices h : ∀ st, keysNodup st → keysNodup (ops.foldl applyDbOp st) from
    h dbInit (by simp [keysNodup, dbInit])
  induction ops with
  | nil => exact fun st h => h
  | cons op ops ih => exact fun st h => ih _ (keysNodup_applyOp st op h)

theorem active_count_le_one (st : DBState) (h : keysNodup st) (u c : String)
    (now : Int) :
    (st.grants.filter fun g => matchesActive g u c now).length ≤ 1 := by
  have hnd : ((st.grants.filter fun g => matchesActive g u c now).map grantKey).Nodup :=
    List.Nodup.sublist ((List.filter_sublist _).map grantKey) h
  have hall : ∀ g ∈ st.grants.filter fun g => matchesActive g u c now,
      grantKey g = (u, c) := by
    intro g hg
    rw [List.mem_filter] at hg
    have hm := hg.2
    rw [matchesActive, Bool.and_eq_true] at hm
    exact pairMatch_eq_key hm.1
  rcases hfil : st.grants.filter fun g => matchesActive g u c now with _ | ⟨x, rest⟩
  · simp
  · cases rest with
    | nil => simp
    | cons y rest' =>
      exfalso
      rw [hfil] at hnd hall
      have hx := hall x (by simp)
      have hy := hall y (by simp)
      rw [List.map_cons, List.map_cons, List.nodup_cons] at hnd
      exact hnd.1 (by rw [hx, ← hy]; exact List.mem_cons_self _ _)

theorem filter_active_after_grant (st : DBState) (u c : String) (e : Int)
    (gb : String) (tg tq : Int) (hq : tq < e) :
    ((Database.grant_permission st u c e gb tg).2.grants.filter
      fun g => matchesActive g u c tq) =
      [{ id := st.next_id, username := u, command := c, granted_at := tg,
         expires_at := e, granted_by := gb, last_used := none, revoked := false,
         revoked_at := none, revoked_by := none }] := by
  dsimp only [Database.grant_permission, Database.add_audit_log]
  rw [List.filter_append]
  have h1 : ((st.grants.filter fun g => !pairMatch g u c).filter
      fun g => matchesActive g u c tq) = [] := by
    rw [List.filter_eq_nil_iff]
    intro g hg
    rw [List.mem_filter] at hg
    have hpm : pairMatch g u c = false := by simpa using hg.2
    simp [matchesActive, hpm]
  rw [h1]
  have h2 : matchesActive
      { id := st.next_id, username := u, command := c, granted_at := tg,
        expires_at := e, granted_by := gb, last_used := none, revoked := false,
        revoked_at := none, revoked_by := none } u c tq = true := by
    simp [matchesActive, pairMatch, isActive, hq]
  simp [h2]

/-- Claim C6 (confirmed): starting from the initialized schema, after any
sequence of grant/revoke/recordUsage/sweep operations at most one active
grant exists per (username, command) pair; and granting the same pair twice
(the second at `t₂` before the first grant's expiry `e₁` and before its own
expiry `e₂`) leaves exactly one active entry for the pair, carrying the
second grant's expiry and grantor. -/
theorem c6_one_active_per_pair :
    (∀ (ops : List DbOp) (u c : String) (now : Int),
      ((runOps ops).grants.filter fun g => matchesActive g u c now).length ≤ 1) ∧
    (∀ (st : DBState) (u c : String) (e₁ e₂ : Int) (b₁ b₂ : String) (t₁ t₂ : Int),
      t₂ < e₁ → t₂ < e₂ →
      (((Database.grant_permission (Database.grant_permission st u c e₁ b₁ t₁).2
          u c e₂ b₂ t₂).2.grants.filter fun g => matchesActive g u c t₂).length = 1 ∧
        ∀ g ∈ (Database.grant_permission (Database.grant_permission st u c e₁ b₁ t₁).2
          u c e₂ b₂ t₂).2.grants.filter fun g => matchesActive g u c t₂,
          g.expires_at = e₂ ∧ g.granted_by = b₂)) := by
  constructor
  · intro ops u c now
    exact active_count_le_one (runOps ops) (keysNodup_runOps ops) u c now
  · intro st u c e₁ e₂ b₁ b₂ t₁ t₂ h₁ h₂
    rw [filter_active_after_grant (Database.grant_permission st u c e₁ b₁ t₁).2
      u c e₂ b₂ t₂ t₂ h₂]
    refine ⟨rfl, ?_⟩
    intro g hg
    rw [List.mem_singleton] at hg
    subst hg
    exact ⟨rfl, rfl⟩

/-- Witness for C6: a concrete two-op run has at most one active
`("alice", "/usr/bin/docker")` grant, and double-granting that pair leaves
exactly one active entry carrying the second expiry (20) and grantor. -/
theorem c6_witness :
    ((runOps [DbOp.grant "alice" "/usr/bin/docker" 100 "admin" 0,
      DbOp.grant "alice" "/usr/bin/docker" 200 "root" 1]).grants.filter
        fun g => matchesActive g "alice" "/usr/bin/docker" 5).length ≤ 1 ∧
    (((Database.grant_permission
        (Database.grant_permission dbInit "alice" "/usr/bin/docker" 10 "admin" 0).2
        "alice" "/usr/bin/docker" 20 "root" 1).2.grants.filter
          fun g => matchesActive g "alice" "/usr/bin/docker" 1).length = 1 ∧
      ∀ g ∈ (Database.grant_permission
        (Database.grant_permission dbInit "alice" "/usr/bin/docker" 10 "admin" 0).2
        "alice" "/usr/bin/docker" 20 "root" 1).2.grants.filter
          fun g => matchesActive g "alice" "/usr/bin/docker" 1,
        g.expires_at = 20 ∧ g.granted_by = "root") :=
  ⟨c6_one_active_per_pair.1 [DbOp.grant "alice" "/usr/bin/docker" 100 "admin" 0,
      DbOp.grant "alice" "/usr/bin/docker" 200 "root" 1] "alice" "/usr/bin/docker" 5,
   c6_one_active_per_pair.2 dbInit "alice" "/usr/bin/docker" 10 20 "admin" "root" 0 1
     (by decide) (by decide)⟩

/-! ### Claim C1 -/

theorem strJoin_anchored (a : String) :
    ∀ l : List String, l.foldl (fun r s => r ++ s) a = a ++ String.join l
  | [] => by simp [String.join]
  | s :: l => by
    show l.foldl (fun r s => r ++ s) (a ++ s) = a ++ String.join (s :: l)
    have hc : String.join (s :: l) = s ++ String.join l := by
      show l.foldl (fun r s => r ++ s) ("" ++ s) = s ++ String.join l
      rw [String.empty_append, strJoin_anchored s l]
    rw [strJoin_anchored (a ++ s) l, hc, String.append_assoc]

theorem strJoin_cons (s : String) (l : List String) :
    String.join (s :: l) = s ++ String.join l := by
  show l.foldl (fun r s => r ++ s) ("" ++ s) = s ++ String.join l
  rw [String.empty_append, strJoin_anchored s l]

theorem strJoin_append (l₁ l₂ : List String) :
    String.join (l₁ ++ l₂) = String.join l₁ ++ String.join l₂ := by
  induction l₁ with
  | nil =>
    rw [List.nil_append]
    rw [show String.join ([] : List String) = "" from rfl, String.empty_append]
  | cons s l ih =>
    rw [List.cons_append, strJoin_cons, strJoin_cons, ih, String.append_assoc]

/-- The sequence of grant rows in the order the two nested rendering loops
visit them: for each username in the `HashMap` iteration order, that user's
grants in snapshot order. -/
def groupedGrants (order : List String) (snap : List PermissionGrant) :
    List PermissionGrant :=
  (order.map fun u => snap.filter fun g => g.username == u).flatten

theorem groupedGrants_perm : ∀ (order : List String) (snap : List PermissionGrant),
    order.Nodup → (∀ g ∈ snap, g.username ∈ order) →
    (groupedGrants order snap).Perm snap
  | [], snap => by
    intro _ hcov
    have hnil : snap = [] := by
      cases snap with
      | nil => rfl
      | cons g t => exact absurd (hcov g (by simp)) (by simp)
    rw [hnil]
    exact List.Perm.refl _
  | u :: rest, snap => by
    intro hnd hcov
    have hu : u ∉ rest := (List.nodup_cons.mp hnd).1
    have hrest : rest.Nodup := (List.nodup_cons.mp hnd).2
    have hstep : groupedGrants rest snap =
        groupedGrants rest (snap.filter fun g => !(g.username == u)) := by
      dsimp only [groupedGrants]
      congr 1
      refine List.map_congr_left fun v hv => ?_
      have hvu : v ≠ u := fun h => hu (h ▸ hv)
      rw [List.filter_filter]
      refine (List.filter_congr fun g hg => ?_)
      by_cases hgv : (g.username == v) = true
      · have : (g.username == u) = false := by
          have := beq_iff_eq.mp hgv
          simp [this, hvu]
        simp [hgv, this]
      · have hgv' : (g.username == v) = false := by simpa using hgv
        simp [hgv']
    have hcov' : ∀ g ∈ snap.filter fun g => !(g.username == u), g.username ∈ rest := by
      intro g hg
      rw [List.mem_filter] at hg
      rcases List.mem_cons.mp (hcov g hg.1) with h | h
      · exact absurd (beq_iff_eq.mpr h) (by simpa using hg.2)
      · exact h
    have ih := groupedGrants_perm rest (snap.filter fun g => !(g.username == u))
      hrest hcov'
    have hsplit : groupedGrants (u :: rest) snap =
        (snap.filter fun g => g.username == u) ++ groupedGrants rest snap := rfl
    rw [hsplit, hstep]
    exact List.Perm.trans (List.Perm.append_left _ ih) (List.filter_append_perm _ _)

theorem renderSudoers_eq_grouped (order : List String) (snap : List PermissionGrant) :
    renderSudoers order snap =
      sudoersHeader ++ String.join ((groupedGrants order snap).map
        fun g => sudoersLine g.username g.command) := by
  dsimp only [renderSudoers]
  congr 1
  induction order with
  | nil => rfl
  | cons u rest ih =>
    rw [List.map_cons, strJoin_cons, ih]
    dsimp only [groupedGrants]
    rw [List.map_cons, List.flatten_cons, List.map_append, strJoin_append]
    congr 1
    dsimp only [commandsOf]
    rw [List.map_map]
    refine congrArg String.join (List.map_congr_left fun g hg => ?_)
    rw [List.mem_filter] at hg
    have hgu : g.username = u := beq_iff_eq.mp hg.2
    simp only [Function.comp_apply]
    rw [hgu]

/-- A database with active grants for two distinct users. -/
def stTwoUsers : DBState :=
  (Database.grant_permission
    (Database.grant_permission dbInit "alice" "/usr/bin/docker" 100 "root" 0).2
    "bob" "/usr/bin/systemctl" 100 "root" 0).2

/-- Claim C1 counterexample: the grouping `HashMap`'s iteration order is
unspecified, and two legitimate iteration orders over the same active-grant
set produce different file content (one of them not sorted by username), so
the rewrite is not a deterministic, (username, command)-sorted rendering of
the active-grant set. -/
theorem c1_counterexample :
    validOrder ["alice", "bob"] (Database.list_active_permissions stTwoUsers 1) ∧
    validOrder ["bob", "alice"] (Database.list_active_permissions stTwoUsers 1) ∧
    renderSudoers ["bob", "alice"] (Database.list_active_permissions stTwoUsers 1) ≠
      renderSudoers ["alice", "bob"] (Database.list_active_permissions stTwoUsers 1) := by
  decide

/-- Claim C1 as amended: for every database state and every possible
iteration order of the grouping `HashMap`, the rendered file is the fixed
header followed by exactly one line `<username> ALL=(ALL) NOPASSWD:
<command>` per active grant — the rendered rows are a permutation of the
active snapshot determined by the iteration order — and within each user's
block the commands appear in ascending order (the snapshot's `ORDER BY
username, command`).  Two rewrites agree whenever they iterate the map in
the same order, but the order itself is implementation-defined. -/
theorem c1_rendering (st : DBState) (now : Int) (order : List String)
    (h : validOrder order (Database.list_active_permissions st now)) :
    (groupedGrants order (Database.list_active_permissions st now)).Perm
      (Database.list_active_permissions st now) ∧
    renderSudoers order (Database.list_active_permissions st now) =
      sudoersHeader ++ String.join ((groupedGrants order
        (Database.list_active_permissions st now)).map
          fun g => sudoersLine g.username g.command) ∧
    ∀ u, List.Pairwise (fun a b => strLE a b = true)
      (commandsOf (Database.list_active_permissions st now) u) := by
  refine ⟨?_, renderSudoers_eq_grouped order _, ?_⟩
  · have hnd : order.Nodup :=
      (List.Perm.nodup_iff h).mpr (List.nodup_dedup _)
    have hcov : ∀ g ∈ Database.list_active_permissions st now, g.username ∈ order := by
      intro g hg
      have : g.username ∈ snapUsers (Database.list_active_permissions st now) :=
        List.mem_dedup.mpr (List.mem_map_of_mem _ hg)
      exact (List.Perm.mem_iff h).mpr this
    exact groupedGrants_perm order _ hnd hcov
  · intro u
    have hsor : List.Pairwise grantKeyLE (Database.list_active_permissions st now) :=
      List.sorted_insertionSort grantKeyLE _
    have hfil : List.Pairwise grantKeyLE
        ((Database.list_active_permissions st now).filter fun g => g.username == u) :=
      hsor.filter _
    dsimp only [commandsOf]
    rw [List.pairwise_map]
    refine List.Pairwise.imp_of_mem ?_ hfil
    intro a b ha hb hab
    rw [List.mem_filter] at ha hb
    have hau : a.username = u := beq_iff_eq.mp ha.2
    have hbu : b.username = u := beq_iff_eq.mp hb.2
    rw [grantKeyLE, grantKeyLEb, if_pos (beq_iff_eq.mpr (hau.trans hbu.symm))] at hab
    exact hab

/-- Witness for C1's amended theorem at a two-user snapshot iterated in the
order `["bob", "alice"]`. -/
theorem c1_witness :
    (groupedGrants ["bob", "alice"] (Database.list_active_permissions stTwoUsers 1)).Perm
      (Database.list_active_permissions stTwoUsers 1) ∧
    renderSudoers ["bob", "alice"] (Database.list_active_permissions stTwoUsers 1) =
      sudoersHeader ++ String.join ((groupedGrants ["bob", "alice"]
        (Database.list_active_permissions stTwoUsers 1)).map
          fun g => sudoersLine g.username g.command) ∧
    ∀ u, List.Pairwise (fun a b => strLE a b = true)
      (commandsOf (Database.list_active_permissions stTwoUsers 1) u) :=
  c1_rendering stTwoUsers 1 ["bob", "alice"] (by decide)
